import Mathlib

/-!
Verification of the Gmail attachment watcher (`src/gmail_watcher.py`)
against its natural-language specification.

The development shallowly embeds the parts of the program the claims
touch:

* `sanitize_filename` — `GmailAttachmentWatcher._sanitize_filename`
  (lines 167-187), including the e-mail–extraction regex
  `<(.+?)>|([^\s<>]+@[^\s<>]+)`, the two `re.sub` passes, and
  `os.path.splitext`.  The Python regexes and `str.lower` are
  Unicode-aware; they are modelled here on their ASCII fragment, and every
  theorem that quantifies over strings carries an ASCII hypothesis (all
  concrete inputs used below are ASCII, where model and source agree
  exactly).
* the message-processing pipeline — `_process_attachment` (410-454),
  `_process_email` (498-546), `_process_new_messages` (548-576) — as pure
  functions from a message plus an environment (header decoder, I/O
  failure oracle, configuration flags) to the list of externally visible
  actions they perform, in order.
* the monitor loop — `start` (745-782), `_monitor_inbox` (578-682) and its
  inner IDLE wait loop (615-664), and `_signal_handler` (102-111) — as
  small step functions on explicit event/outcome types.

Bytes are modelled as `Nat`, byte strings as `List Nat`.
-/

/-! ### Character helpers

`Char.toLower` in Lean lowers exactly the ASCII letters `A`-`Z`, which
coincides with CPython `str.lower` on ASCII text; it is used as the model
of every `.lower()` call in the source. -/

theorem char_toNat_ofNat_valid {n : Nat} (h : n.isValidChar) :
    (Char.ofNat n).toNat = n := by
  simp [Char.ofNat, dif_pos h, Char.ofNatAux, Char.toNat, UInt32.toNat]

theorem char_eq_iff_toNat {c d : Char} : c = d ↔ c.toNat = d.toNat := by
  constructor
  · intro h
    rw [h]
  · intro h
    rw [← Char.ofNat_toNat c, h, Char.ofNat_toNat]

theorem toLower_eq_self {c : Char} (h : ¬(65 ≤ c.toNat ∧ c.toNat ≤ 90)) :
    c.toLower = c := by
  unfold Char.toLower
  exact if_neg h

theorem toNat_toLower_upper {c : Char} (h : 65 ≤ c.toNat ∧ c.toNat ≤ 90) :
    c.toLower.toNat = c.toNat + 32 := by
  unfold Char.toLower
  rw [if_pos h]
  exact char_toNat_ofNat_valid (Or.inl (by omega))

theorem toLower_idem (c : Char) : c.toLower.toLower = c.toLower := by
  by_cases h : 65 ≤ c.toNat ∧ c.toNat ≤ 90
  · have h2 := toNat_toLower_upper h
    apply toLower_eq_self
    omega
  · rw [toLower_eq_self h, toLower_eq_self h]

/-- Lowering does not create or destroy equality with a character that is
neither an upper- nor a lower-case ASCII letter. -/
theorem toLower_eq_symbol {c d : Char} (hd1 : ¬(65 ≤ d.toNat ∧ d.toNat ≤ 90))
    (hd2 : ¬(97 ≤ d.toNat ∧ d.toNat ≤ 122)) : c.toLower = d ↔ c = d := by
  by_cases h : 65 ≤ c.toNat ∧ c.toNat ≤ 90
  · have h1 := toNat_toLower_upper h
    constructor
    · intro he
      exact absurd ⟨by omega, by omega⟩ (he ▸ hd2 : ¬(97 ≤ c.toLower.toNat ∧ c.toLower.toNat ≤ 122))
    · intro he
      exact absurd (he ▸ h) hd1
  · rw [toLower_eq_self h]

theorem toLower_beq_symbol {c d : Char} (hd1 : ¬(65 ≤ d.toNat ∧ d.toNat ≤ 90))
    (hd2 : ¬(97 ≤ d.toNat ∧ d.toNat ≤ 122)) : (c.toLower == d) = (c == d) := by
  by_cases h : c.toLower = d
  · rw [h, ((toLower_eq_symbol hd1 hd2).mp h)]
  · have h2 : ¬(c = d) := fun he => h ((toLower_eq_symbol hd1 hd2).mpr he)
    simp [h, h2]

/-! ### FilenameSanitizer (`_sanitize_filename`, lines 167-187) -/

/-- Python `\s` on ASCII: space, tab, newline, carriage return, vertical
tab, form feed. -/
def pySpace (c : Char) : Bool :=
  c == ' ' || c == '\t' || c == '\n' || c == '\r' || c.toNat == 11 || c.toNat == 12

/-- Python `\w` on ASCII: `[A-Za-z0-9_]` (65-90, 97-122, 48-57, 95). -/
def pyWord (c : Char) : Bool :=
  (65 ≤ c.toNat && c.toNat ≤ 90) || (97 ≤ c.toNat && c.toNat ≤ 122) ||
    (48 ≤ c.toNat && c.toNat ≤ 57) || c == '_'

/-- The character class `[^\s<>]` of the bare-address branch. -/
def addrChar (c : Char) : Bool :=
  !pySpace c && !(c == '<') && !(c == '>')

/-- Lazy scan for the body of `<(.+?)>`: having consumed `acc` (reversed)
after the `<`, consume non-newline characters until the first `>`. -/
def angleScan (acc : List Char) : List Char → Option (List Char)
  | [] => none
  | c :: rest =>
    if c == '>' then some acc.reverse
    else if c == '\n' then none
    else angleScan (c :: acc) rest

/-- Group of `<(.+?)>` applied right after a `<`: the shortest non-empty
run of non-newline characters that is followed by `>` (`.` does not match
a newline, `+?` is lazy so the first reachable `>` ends the group). -/
def angleGroup : List Char → Option (List Char)
  | [] => none
  | c :: rest => if c == '\n' then none else angleScan [c] rest

/-- Does the run have an `@` in its interior (at least one character on
each side)?  `[^\s<>]+@[^\s<>]+` matches at a position exactly when the
maximal `[^\s<>]` run there satisfies this; backtracking then makes the
match the whole run. -/
def interiorAt : List Char → Bool
  | [] => false
  | _ :: rest => rest.dropLast.contains '@'

/-- `re.search(r'<(.+?)>|([^\s<>]+@[^\s<>]+)', s)` (line 170): scan
positions left to right; at each one try the angle-bracket branch first,
then the bare-address branch; return the matched group. -/
def emailSearch : List Char → Option (List Char)
  | [] => none
  | c :: rest =>
    match (if c == '<' then angleGroup rest else none) with
    | some g => some g
    | none =>
      let run := (c :: rest).takeWhile addrChar
      if interiorAt run then some run else emailSearch rest

/-- Lines 170-174: `email_addr = match.group(1) or match.group(2)` if the
regex matched, else the raw sender string. -/
def extractEmailAddr (sender : String) : String :=
  match emailSearch sender.data with
  | some g => ⟨g⟩
  | none => sender

def lastIndexOf (l : List Char) (c : Char) : Option Nat :=
  l.enum.foldl (fun acc p => if p.2 == c then some p.1 else acc) none

/-- `os.path.splitext` (posixpath): the extension starts at the last dot,
provided it lies after the last `/` and the basename is not entirely dots
up to that point. -/
def splitext (l : List Char) : List Char × List Char :=
  match lastIndexOf l '.' with
  | none => (l, [])
  | some d =>
    let s := match lastIndexOf l '/' with
      | none => 0
      | some si => si + 1
    if s ≤ d then
      if (List.range (d - s)).any (fun j => !(l.get? (s + j) == some '.')) then
        (l.take d, l.drop d)
      else (l, [])
    else (l, [])

/-- Line 177: `re.sub(r'[<>@.]', '_', …)`. -/
def senderSub (c : Char) : Char :=
  if c == '<' || c == '>' || c == '@' || c == '.' then '_' else c

/-- Line 178: `re.sub(r'[^\w\-_]', '', …)` keeps `\w`, `-`, `_`. -/
def senderKeep (c : Char) : Bool :=
  pyWord c || c == '-' || c == '_'

/-- Line 182: `re.sub(r'[^\w\-_.]', '_', name)`. -/
def stemSub (c : Char) : Char :=
  if pyWord c || c == '-' || c == '_' || c == '.' then c else '_'

def lowerStr (s : String) : String := ⟨s.data.map Char.toLower⟩

/-- `GmailAttachmentWatcher._sanitize_filename(filename, sender, timestamp)`
(lines 167-187): extract the address from the sender, lower-case it,
replace `[<>@.]` by `_` and drop everything outside `[\w\-_]`; split the
filename into stem and extension, replace everything outside `[\w\-_.]`
in the stem by `_`, lower-case the extension; assemble
`{clean_sender}_{timestamp}_{clean_name}{clean_ext}`. -/
def sanitize_filename (filename sender timestamp : String) : String :=
  let email_addr := extractEmailAddr sender
  let clean_sender := ((lowerStr email_addr).data.map senderSub).filter senderKeep
  let ne := splitext filename.data
  let clean_name := ne.1.map stemSub
  let clean_ext := ne.2.map Char.toLower
  ⟨clean_sender ++ ('_' :: timestamp.data) ++ ('_' :: (clean_name ++ clean_ext))⟩

/-! ### Message-processing pipeline -/

/-- A MIME part as seen by `message.walk()` (lines 524-537):
`get_content_disposition()`, `get_filename()` (both possibly absent), and
the decoded payload of `get_payload(decode=True)` (`[]` stands for both an
absent and an empty payload — both are falsy at line 534). -/
structure MimePart where
  disposition : Option String
  filename : Option String
  payload : List Nat
deriving DecidableEq, Repr

/-- A fetched message: its IMAP id and raw `From`/`Subject` headers. -/
structure Message where
  uid : Nat
  fromH : String
  subjectH : String
  parts : List MimePart
deriving DecidableEq, Repr

/-- The JSON record appended per saved attachment (lines 425-444). -/
structure AttachmentInfo where
  sender : String
  subject : String
  original_filename : String
  saved_filename : String
  file_size : Nat
  file_path : String
deriving DecidableEq, Repr

/-- Externally visible pipeline actions, in program order. -/
inductive PAct where
  /-- `open(file_path,'wb'); f.write(attachment_data)` (lines 419-420). -/
  | fileWrite (path : String) (data : List Nat)
  /-- append of one JSON line to `attachments.json` (lines 442-444). -/
  | recordAppend (info : AttachmentInfo)
  /-- the `_summary.txt` artifact written by `_process_pdf` (474-491). -/
  | summaryWrite (pdfPath : String)
  /-- `logger.error(...)` in an `except` clause. -/
  | errorLog
  /-- `self.mail.store(email_id, '+FLAGS', '\\Seen')` (line 568). -/
  | markSeen (uid : Nat)
deriving DecidableEq, Repr

/-- The collaborators and non-determinism the pipeline interacts with:
the RFC 2047 header decoder `_decode_header_value` (opaque, never
raises), an I/O oracle saying whether writing a given path raises, the
configuration flags, and the wall clock read at line 512 (abstracted as a
timestamp per processed message). -/
structure Env where
  decode : String → String
  wfail : String → Bool
  docker : Bool
  enableSumm : Bool
  attachmentsDir : String
  now : Message → String
  fetchFail : Message → Bool

/-- `filename.lower().endswith('.pdf')` (line 447). -/
def isPdfName (filename : String) : Bool :=
  (".pdf".data).isSuffixOf (filename.data.map Char.toLower)

/-- `_process_attachment` (lines 410-454): build the unique filename,
write the payload, log/append the metadata record (JSON append only when
not in Docker mode, lines 436-444), run the PDF analysis when enabled; on
any exception in the body, log the error and return `None` (452-454) —
modelled as the whole write failing when the oracle says so. -/
def processAttachment (env : Env) (data : List Nat)
    (filename sender subject timestamp : String) : List PAct :=
  let uf := sanitize_filename filename sender timestamp
  let path := env.attachmentsDir ++ "/" ++ uf
  if env.wfail path then [.errorLog]
  else
    .fileWrite path data ::
      ((if env.docker then [] else
          [.recordAppend ⟨sender, subject, filename, uf, data.length, path⟩]) ++
        (if isPdfName filename && env.enableSumm then [.summaryWrite path] else []))

/-- Python truthiness of `get_filename()` at line 529: present and
non-empty. -/
def truthyName : Option String → Bool
  | none => false
  | some s => !s.isEmpty

/-- One iteration of the `message.walk()` loop (lines 524-537): only a
part whose content-disposition is `attachment`, whose filename is truthy
and whose decoded payload is truthy reaches `_process_attachment`; the
filename is header-decoded first (line 531). -/
def partActions (env : Env) (sender subject timestamp : String) (p : MimePart) : List PAct :=
  if p.disposition == some "attachment" then
    if truthyName p.filename then
      if p.payload.isEmpty then []
      else
        processAttachment env p.payload (env.decode (p.filename.getD ""))
          sender subject timestamp
    else []
  else []

/-- `_process_email` (lines 498-546): fetch and parse the message (a
failure anywhere is caught at 545-546, leaving only an error log), decode
the sender and subject, take one timestamp for the whole message
(line 512), then walk the parts. -/
def processEmail (env : Env) (m : Message) : List PAct :=
  if env.fetchFail m then [.errorLog]
  else
    let sender := env.decode m.fromH
    let subject := env.decode m.subjectH
    let timestamp := env.now m
    m.parts.flatMap (partActions env sender subject timestamp)

/-- The per-message body of `_process_new_messages` (lines 565-568) and of
the catch-up loops (695-697, 775-777): process the email, then
unconditionally mark it seen. -/
def processNewMessages (env : Env) (msgs : List Message) : List PAct :=
  msgs.flatMap (fun m => processEmail env m ++ [.markSeen m.uid])

/-- Replay the file writes of a trace over a file system (`last write
wins`, as `open(..., 'wb')` truncates). -/
def applyWrites (tr : List PAct) (fs : String → Option (List Nat)) :
    String → Option (List Nat) :=
  tr.foldl
    (fun acc a =>
      match a with
      | .fileWrite p d => fun q => if q = p then some d else acc q
      | _ => acc)
    fs

/-! ### Monitor loop, IDLE protocol, signal handler -/

/-- Outcome of `start` (lines 745-782). -/
inductive StartResult where
  /-- `_connect_gmail` failed: log `Failed to connect to Gmail. Exiting.`
  and `return` — the process exits (lines 762-764). -/
  | exitedConnectFailure
  /-- connected: catch-up scan, then `_monitor_inbox` runs forever. -/
  | monitoring
deriving DecidableEq, Repr

def startResult (connectOk : Bool) : StartResult :=
  if connectOk then .monitoring else .exitedConnectFailure

/-- Protocol-level actions of the IDLE loop. -/
inductive MonAct where
  /-- `self.mail.send(b'DONE\r\n')` — terminate the outstanding IDLE. -/
  | sendDone
  /-- `readline()` until the response carries the handshake tag
  (lines 634-637 and 651-654). -/
  | awaitTagAck
  /-- `self._process_new_messages()` (line 640) — the catch-up scan. -/
  | processMessages
deriving DecidableEq, Repr

/-- The phase the outer loop re-enters after the inner IDLE loop breaks:
the top of `while self.running` re-selects the mailbox and sends a fresh
`IDLE` (lines 591-613), i.e. the IDLE handshake. -/
inductive MonPhase where
  | idleHandshake
  | catchup
deriving DecidableEq, Repr

inductive IdleReason where
  | newData
  | refresh
deriving DecidableEq, Repr

/-- A decision of one inner IDLE-wait iteration to leave `IDLE_WAITING`. -/
structure IdleExit where
  reason : IdleReason
  acts : List MonAct
  next : MonPhase
deriving DecidableEq, Repr

def startsWithL : List Char → List Char → Bool
  | [], _ => true
  | _ :: _, [] => false
  | a :: as, b :: bs => a == b && startsWithL as bs

def infixOfL (needle : List Char) : List Char → Bool
  | [] => startsWithL needle []
  | c :: rest => startsWithL needle (c :: rest) || infixOfL needle rest

/-- `'EXISTS' in line_str` (line 627): substring containment. -/
def hasSub (needle hay : String) : Bool :=
  infixOfL needle.data hay.data

/-- One iteration of the inner IDLE wait loop (lines 615-655): read a
line (`none` models an empty read); a line containing `EXISTS` triggers
`DONE`, the tagged-acknowledgment wait, the catch-up scan, and a `break`
back to a fresh handshake (627-643); otherwise, once more than 1740
seconds have elapsed, `DONE`, the tagged-acknowledgment wait, and a
`break` back to a fresh handshake with no catch-up (645-655); otherwise
keep waiting. -/
def idleIteration (line : Option String) (elapsed : Nat) : Option IdleExit :=
  match line with
  | some l =>
    if hasSub "EXISTS" l then
      some ⟨.newData, [.sendDone, .awaitTagAck, .processMessages], .idleHandshake⟩
    else if 1740 < elapsed then
      some ⟨.refresh, [.sendDone, .awaitTagAck], .idleHandshake⟩
    else none
  | none =>
    if 1740 < elapsed then
      some ⟨.refresh, [.sendDone, .awaitTagAck], .idleHandshake⟩
    else none

/-- What one iteration of the outer `while self.running` loop of
`_monitor_inbox` (lines 582-682) can encounter. -/
inductive MonitorEvent where
  /-- no connection and `_connect_gmail` failed: `time.sleep(30)` and
  `continue` (585-588). -/
  | reconnectFailed
  /-- any exception during setup or the handshake, caught at 666: log,
  best-effort logout, reconnect, one polling cycle, sleep, retry. -/
  | idleSetupFailed (pollRan : Bool)
  /-- the inner IDLE loop broke (push, refresh, or inner error): the
  outer loop simply runs again. -/
  | idleRoundEnded (exit : Option IdleExit)
  /-- an exception inside the inner wait loop, caught at 657-664:
  best-effort `DONE`, break, outer loop runs again. -/
  | innerError
deriving DecidableEq, Repr

/-- Result of one outer-loop iteration. -/
inductive IterResult where
  | continueLoop
  | exitProcess
deriving DecidableEq, Repr

/-- Every branch of the outer loop body ends in `continue` or falls
through to the next iteration; the `except Exception` at line 666 is a
catch-all, so no error leaves the loop. -/
def monitorIteration : MonitorEvent → IterResult
  | .reconnectFailed => .continueLoop
  | .idleSetupFailed _ => .continueLoop
  | .idleRoundEnded _ => .continueLoop
  | .innerError => .continueLoop

/-- Actions of `_signal_handler` (lines 102-111). -/
inductive SigAct where
  | logReceived
  | setRunningFalse
  /-- `self.mail.logout()` inside `try/except pass` (107-110). -/
  | tryLogout
  /-- `sys.exit(0)` (line 111). -/
  | sysExit
  /-- `DONE` — never issued by the handler. -/
  | sendDone
  /-- wait for the tagged IDLE termination — never done by the handler. -/
  | awaitTagAck
deriving DecidableEq, Repr

/-- `_signal_handler` (lines 102-111), for both recognized signals:
log, clear `running`, best-effort logout when a connection exists, exit. -/
def signalHandlerActions (mailConnected : Bool) : List SigAct :=
  [.logReceived, .setRunningFalse] ++
    (if mailConnected then [.tryLogout] else []) ++ [.sysExit]

/-! ### Claim C6 -/

/-- C6: for sender `"Jane Doe <jane@ex.com>"`, original filename
`"Report (Final).PDF"`, and timestamp `"20240101_120000"`, the sanitizer
returns exactly `"jane_ex_com_20240101_120000_Report__Final_.pdf"`. -/
theorem C6_scenario_filename :
    sanitize_filename "Report (Final).PDF" "Jane Doe <jane@ex.com>" "20240101_120000"
      = "jane_ex_com_20240101_120000_Report__Final_.pdf" := by rfl

/-! ### Claim C2 -/

/-- C2 counterexample: a connection failure does make the watcher exit.
When the initial `_connect_gmail()` in `start` fails, `start` logs
`Failed to connect to Gmail. Exiting.` and returns (lines 762-764), so the
process terminates on an error path that is not a shutdown signal,
contradicting the claim that no connection failure causes an exit. -/
theorem C2_counterexample_initial_connect_exit :
    startResult false = StartResult.exitedConnectFailure := by rfl

/-- C2 amended: once monitoring has started, no error terminates the
process — every event an iteration of the `_monitor_inbox` loop can
encounter (reconnection failure, handshake failure, inner IDLE error,
any inner exit) ends in `continue`, never in process exit; but an initial
connection failure in `start` does end the process. -/
theorem C2_no_error_exits_monitor_loop :
    ∀ ev : MonitorEvent, monitorIteration ev = IterResult.continueLoop := by
  intro ev
  cases ev <;> rfl

/-! ### Claim C3 -/

/-- C3: an inner IDLE-wait iteration that sees more than 1740 seconds
elapsed and no push notification (no line, or a line not containing
`EXISTS`) leaves `IDLE_WAITING` with reason `refresh`, performing exactly
the idle-stop send and the tagged-acknowledgment wait, and re-enters the
IDLE handshake; the catch-up scan (`_process_new_messages`) is not among
its actions. -/
theorem C3_idle_refresh_reenters_handshake (line : Option String) (elapsed : Nat)
    (ht : 1740 < elapsed)
    (hp : ∀ l, line = some l → hasSub "EXISTS" l = false) :
    idleIteration line elapsed =
      some ⟨IdleReason.refresh, [MonAct.sendDone, MonAct.awaitTagAck], MonPhase.idleHandshake⟩ ∧
    ∀ e, idleIteration line elapsed = some e →
      MonAct.processMessages ∉ e.acts ∧ e.next = MonPhase.idleHandshake := by
  have hiter : idleIteration line elapsed =
      some ⟨IdleReason.refresh, [MonAct.sendDone, MonAct.awaitTagAck], MonPhase.idleHandshake⟩ := by
    cases line with
    | none => simp [idleIteration, ht]
    | some l => simp [idleIteration, hp l rfl, ht]
  refine ⟨hiter, ?_⟩
  intro e he
  rw [hiter] at he
  cases he
  exact ⟨by decide, rfl⟩

/-- C3 witness: at 1741 elapsed seconds with a keep-alive line that is not
a push notification, the iteration refreshes the IDLE session. -/
theorem C3_witness :
    1740 < 1741 ∧
    (idleIteration (some "* OK Still here") 1741 =
        some ⟨IdleReason.refresh, [MonAct.sendDone, MonAct.awaitTagAck], MonPhase.idleHandshake⟩ ∧
      ∀ e, idleIteration (some "* OK Still here") 1741 = some e →
        MonAct.processMessages ∉ e.acts ∧ e.next = MonPhase.idleHandshake) :=
  ⟨by decide,
    C3_idle_refresh_reenters_handshake (some "* OK Still here") 1741 (by decide)
      (by intro l h; cases h; decide)⟩

/-! ### Claim C4 -/

/-- C4 counterexample: on a shutdown signal with a connection up (hence
possibly an outstanding IDLE wait), `_signal_handler` closes the transport
(`logout`) and exits without ever sending the idle-stop command `DONE` or
waiting for the tagged termination acknowledgment (lines 102-111), so the
IDLE_TERMINATING handshake the claim requires does not happen. -/
theorem C4_counterexample_no_done_on_signal :
    SigAct.sendDone ∉ signalHandlerActions true ∧
    SigAct.awaitTagAck ∉ signalHandlerActions true ∧
    SigAct.tryLogout ∈ signalHandlerActions true ∧
    SigAct.sysExit ∈ signalHandlerActions true := by decide

/-- C4 amended: whatever the connection state, the signal handler never
performs the IDLE_TERMINATING handshake — it issues no idle-stop and
waits for no tagged acknowledgment; it exits the process directly, after a
best-effort logout exactly when a connection exists. -/
theorem C4_handler_skips_idle_handshake (mailConnected : Bool) :
    SigAct.sendDone ∉ signalHandlerActions mailConnected ∧
    SigAct.awaitTagAck ∉ signalHandlerActions mailConnected ∧
    SigAct.sysExit ∈ signalHandlerActions mailConnected ∧
    (SigAct.tryLogout ∈ signalHandlerActions mailConnected ↔ mailConnected = true) := by
  cases mailConnected <;> decide

/-! ### Pipeline helper lemmas and fixtures -/

/-- `_process_attachment` emits no mark-seen action. -/
theorem markSeen_not_mem_processAttachment (env : Env) (u : Nat) (data : List Nat)
    (filename sender subject timestamp : String) :
    PAct.markSeen u ∉ processAttachment env data filename sender subject timestamp := by
  unfold processAttachment
  by_cases h : env.wfail (env.attachmentsDir ++ "/" ++ sanitize_filename filename sender timestamp)
  · simp [h]
  · simp only [h, if_false, Bool.false_eq_true]
    intro hm
    rcases List.mem_cons.mp hm with h1 | h1
    · cases h1
    · rcases List.mem_append.mp h1 with h2 | h2 <;>
        { by_cases hb : env.docker = true <;> by_cases hc : (isPdfName filename && env.enableSumm) = true <;>
            simp_all }

/-- `_process_email` emits no mark-seen action: the only source of the
store command is `_process_new_messages` (line 568). -/
theorem markSeen_not_mem_processEmail (env : Env) (m : Message) (u : Nat) :
    PAct.markSeen u ∉ processEmail env m := by
  unfold processEmail
  by_cases h : env.fetchFail m
  · simp [h]
  · simp only [h, if_false, Bool.false_eq_true, List.mem_flatMap, not_exists]
    intro p hmem
    obtain ⟨-, hin⟩ := hmem
    unfold partActions at hin
    by_cases h1 : (p.disposition == some "attachment") = true
    · by_cases h2 : truthyName p.filename = true
      · by_cases h3 : p.payload.isEmpty = true
        · simp [h1, h2, h3] at hin
        · rw [h1, if_pos rfl, h2, if_pos rfl] at hin
          simp only [Bool.not_eq_true] at h3
          rw [h3] at hin
          simp only [Bool.false_eq_true, if_false] at hin
          exact markSeen_not_mem_processAttachment env u p.payload _ _ _ _ hin
      · simp [h1, h2] at hin
    · simp [h1] at hin

/-! ### Claim C1 -/

/-- A message with one qualifying attachment whose write fails. -/
def msgFail : Message :=
  ⟨7, "a@b.c", "invoice", [⟨some "attachment", some "doc.txt", [1, 2, 3]⟩]⟩

/-- An environment in which every file write raises. -/
def envAllFail : Env :=
  ⟨id, fun _ => true, false, false, "att", fun _ => "ts", fun _ => false⟩

/-- C1 counterexample: the mark-seen store command IS issued for a message
whose attachment writes did not complete.  For a message with one
qualifying attachment whose write raises, `_process_attachment` logs the
error and returns `None` (lines 452-454), `_process_email` finishes, and
`_process_new_messages` still runs `store(..., '\\Seen')` (line 568): the
trace is an error log followed by mark-seen, with no file write. -/
theorem C1_counterexample_seen_despite_failed_write :
    processNewMessages envAllFail [msgFail] = [PAct.errorLog, PAct.markSeen 7] := by rfl

/-- C1 amended: mark-seen is issued only after the processing of the
message has completed — in the trace, the whole `_process_email` block of
a message (every attachment write attempt) immediately precedes that
message's mark-seen, and no mark-seen occurs inside the block; however
processing `completing` includes swallowed write failures, so a message
whose attachment writes failed is still marked seen. -/
theorem C1_mark_seen_follows_processing (env : Env) (msgs : List Message)
    (m : Message) (hm : m ∈ msgs) :
    (∃ pre post, processNewMessages env msgs =
        pre ++ processEmail env m ++ [PAct.markSeen m.uid] ++ post) ∧
    ∀ u, PAct.markSeen u ∉ processEmail env m := by
  refine ⟨?_, fun u => markSeen_not_mem_processEmail env m u⟩
  induction msgs with
  | nil => cases hm
  | cons m0 rest ih =>
    rcases List.mem_cons.mp hm with h | h
    · subst h
      refine ⟨[], processNewMessages env rest, ?_⟩
      simp [processNewMessages, List.flatMap_cons]
    · obtain ⟨pre, post, hp⟩ := ih h
      refine ⟨processEmail env m0 ++ [PAct.markSeen m0.uid] ++ pre, post, ?_⟩
      simp only [processNewMessages, List.flatMap_cons] at *
      rw [hp]
      simp [List.append_assoc]

/-- C1 witness: a two-message batch; the second message's processing block
immediately precedes its mark-seen. -/
theorem C1_witness :
    msgFail ∈ [⟨3, "x@y.z", "s", []⟩, msgFail] ∧
    ((∃ pre post, processNewMessages envAllFail [⟨3, "x@y.z", "s", []⟩, msgFail] =
        pre ++ processEmail envAllFail msgFail ++ [PAct.markSeen msgFail.uid] ++ post) ∧
      ∀ u, PAct.markSeen u ∉ processEmail envAllFail msgFail) :=
  ⟨by decide,
    C1_mark_seen_follows_processing envAllFail [⟨3, "x@y.z", "s", []⟩, msgFail] msgFail
      (by decide)⟩

/-! ### Claim C7 -/

/-- An environment where all I/O succeeds (non-Docker, summarization off). -/
def envOk : Env :=
  ⟨id, fun _ => false, false, false, "att", fun _ => "ts", fun _ => false⟩

/-- C7: every action of `_process_email` originates from a part whose
content-disposition is `attachment`, whose filename is present and
non-empty, and whose decoded payload is non-empty; and a message none of
whose parts carries a filename produces no action at all — zero files
written — yet is still marked seen by `_process_new_messages`. -/
theorem C7_attachment_gating (env : Env) (m : Message)
    (hf : env.fetchFail m = false) :
    (∀ a ∈ processEmail env m, ∃ p ∈ m.parts,
        p.disposition = some "attachment" ∧ truthyName p.filename = true ∧
          p.payload ≠ []) ∧
    ((∀ p ∈ m.parts, truthyName p.filename = false) →
      processNewMessages env [m] = [PAct.markSeen m.uid]) := by
  constructor
  · intro a ha
    unfold processEmail at ha
    rw [hf] at ha
    simp only [Bool.false_eq_true, if_false, List.mem_flatMap] at ha
    obtain ⟨p, hp, hin⟩ := ha
    refine ⟨p, hp, ?_⟩
    unfold partActions at hin
    by_cases h1 : (p.disposition == some "attachment") = true
    · by_cases h2 : truthyName p.filename = true
      · by_cases h3 : p.payload.isEmpty = true
        · simp [h1, h2, h3] at hin
        · refine ⟨by simpa using h1, h2, ?_⟩
          simpa using h3
      · simp [h1, h2] at hin
    · simp [h1] at hin
  · intro hnone
    have hpe : processEmail env m = [] := by
      unfold processEmail
      rw [hf]
      simp only [Bool.false_eq_true, if_false]
      rw [List.flatMap_eq_nil_iff]
      intro p hp
      unfold partActions
      rw [hnone p hp]
      simp
    simp [processNewMessages, hpe]

/-- A message whose only attachment part lacks a filename. -/
def msgNoName : Message :=
  ⟨5, "x@y.z", "s", [⟨some "attachment", none, [1, 2]⟩]⟩

/-- C7 witness: the no-filename message yields zero actions and is still
marked seen. -/
theorem C7_witness :
    envOk.fetchFail msgNoName = false ∧
    ((∀ a ∈ processEmail envOk msgNoName, ∃ p ∈ msgNoName.parts,
        p.disposition = some "attachment" ∧ truthyName p.filename = true ∧
          p.payload ≠ []) ∧
      ((∀ p ∈ msgNoName.parts, truthyName p.filename = false) →
        processNewMessages envOk [msgNoName] = [PAct.markSeen msgNoName.uid])) :=
  ⟨rfl, C7_attachment_gating envOk msgNoName rfl⟩

/-! ### Claim C8 -/

/-- The metadata records appended by a trace, in order. -/
def recordsOf (tr : List PAct) : List AttachmentInfo :=
  tr.filterMap (fun a => match a with
    | .recordAppend i => some i
    | _ => none)

/-- C8 amended (non-Docker mode): when the write succeeds, exactly one
metadata record is appended, and its `file_size` equals the length of the
byte string written to the attachments directory. -/
theorem C8_record_matches_saved_file (env : Env) (data : List Nat)
    (filename sender subject timestamp : String)
    (hdm : env.docker = false)
    (hw : env.wfail
        (env.attachmentsDir ++ "/" ++ sanitize_filename filename sender timestamp)
      = false) :
    recordsOf (processAttachment env data filename sender subject timestamp) =
      [⟨sender, subject, filename, sanitize_filename filename sender timestamp,
        data.length,
        env.attachmentsDir ++ "/" ++ sanitize_filename filename sender timestamp⟩] ∧
    PAct.fileWrite
        (env.attachmentsDir ++ "/" ++ sanitize_filename filename sender timestamp)
        data
      ∈ processAttachment env data filename sender subject timestamp := by
  simp only [processAttachment]
  rw [hw, hdm]
  by_cases hpdf : (isPdfName filename && env.enableSumm) = true
  · rw [hpdf]
    constructor
    · simp [recordsOf]
    · simp
  · simp only [Bool.not_eq_true] at hpdf
    rw [hpdf]
    constructor
    · simp [recordsOf]
    · simp

/-- C8 witness: a concrete successful save appends exactly the matching
record. -/
theorem C8_witness :
    envOk.docker = false ∧
    envOk.wfail ("att" ++ "/" ++ sanitize_filename "doc.txt" "a@b.c" "ts") = false ∧
    (recordsOf (processAttachment envOk [1, 2, 3] "doc.txt" "a@b.c" "s" "ts") =
        [⟨"a@b.c", "s", "doc.txt", sanitize_filename "doc.txt" "a@b.c" "ts", 3,
          "att" ++ "/" ++ sanitize_filename "doc.txt" "a@b.c" "ts"⟩] ∧
      PAct.fileWrite ("att" ++ "/" ++ sanitize_filename "doc.txt" "a@b.c" "ts") [1, 2, 3]
        ∈ processAttachment envOk [1, 2, 3] "doc.txt" "a@b.c" "s" "ts") :=
  ⟨rfl, rfl, C8_record_matches_saved_file envOk [1, 2, 3] "doc.txt" "a@b.c" "s" "ts" rfl rfl⟩

/-- The Docker-mode environment: line 436 routes the metadata only to the
console, the JSON append (441-444) is skipped. -/
def envDocker : Env :=
  ⟨id, fun _ => false, true, false, "att", fun _ => "ts", fun _ => false⟩

/-- C8 counterexample: in Docker mode an attachment is successfully saved
(the file write happens) yet NO metadata record is appended to the log —
`attachments.json` is only written in non-Docker mode (lines 436-444) —
so `exactly one record per saved attachment` fails. -/
theorem C8_counterexample_docker_no_record :
    recordsOf (processAttachment envDocker [1, 2, 3] "doc.txt" "a@b.c" "s" "ts") = [] ∧
    PAct.fileWrite ("att" ++ "/" ++ sanitize_filename "doc.txt" "a@b.c" "ts") [1, 2, 3]
      ∈ processAttachment envDocker [1, 2, 3] "doc.txt" "a@b.c" "s" "ts" := by
  constructor
  · rfl
  · simp [processAttachment, envDocker]

/-! ### Claim C9 -/

theorem applyWrites_append (l1 l2 : List PAct) (fs : String → Option (List Nat)) :
    applyWrites (l1 ++ l2) fs = applyWrites l2 (applyWrites l1 fs) :=
  List.foldl_append ..

/-- Replaying a trace with no file write leaves the store unchanged. -/
theorem applyWrites_of_no_writes (l : List PAct) (fs : String → Option (List Nat))
    (h : ∀ p d, PAct.fileWrite p d ∉ l) : applyWrites l fs = fs := by
  induction l generalizing fs with
  | nil => rfl
  | cons a rest ih =>
    have hrest : ∀ p d, PAct.fileWrite p d ∉ rest := by
      intro p d hm
      exact h p d (List.mem_cons_of_mem a hm)
    cases a with
    | fileWrite p d => exact absurd (List.mem_cons_self _ _) (h p d)
    | recordAppend i => exact ih fs hrest
    | summaryWrite s => exact ih fs hrest
    | errorLog => exact ih fs hrest
    | markSeen u => exact ih fs hrest

/-- A successful `_process_attachment` run is one file write followed by
write-free bookkeeping. -/
theorem processAttachment_success_shape (env : Env) (data : List Nat)
    (filename sender subject timestamp : String)
    (hw : env.wfail
        (env.attachmentsDir ++ "/" ++ sanitize_filename filename sender timestamp)
      = false) :
    ∃ extras,
      processAttachment env data filename sender subject timestamp =
        PAct.fileWrite
            (env.attachmentsDir ++ "/" ++ sanitize_filename filename sender timestamp)
            data
          :: extras ∧
      ∀ p d, PAct.fileWrite p d ∉ extras := by
  refine ⟨(if env.docker then [] else
      [PAct.recordAppend ⟨sender, subject, filename,
        sanitize_filename filename sender timestamp, data.length,
        env.attachmentsDir ++ "/" ++ sanitize_filename filename sender timestamp⟩]) ++
    (if isPdfName filename && env.enableSumm then
      [PAct.summaryWrite
        (env.attachmentsDir ++ "/" ++ sanitize_filename filename sender timestamp)]
    else []), ?_, ?_⟩
  · simp only [processAttachment]
    rw [hw]
    simp
  · intro p d hm
    rcases List.mem_append.mp hm with h1 | h1 <;>
      revert h1 <;> split <;> simp

/-- C9: `_process_email` computes the timestamp once per message
(line 512), so both attachment parts of a message are saved under
filenames built from the same timestamp; if their decoded filenames are
equal, both writes target the same path and replaying the trace leaves
the second part's payload — the second write overwrites the first. -/
theorem C9_duplicate_filenames_overwrite (env : Env) (m : Message)
    (p1 p2 : MimePart) (fs : String → Option (List Nat))
    (hparts : m.parts = [p1, p2])
    (hf : env.fetchFail m = false)
    (hd1 : p1.disposition = some "attachment")
    (hd2 : p2.disposition = some "attachment")
    (hn1 : truthyName p1.filename = true)
    (hn2 : truthyName p2.filename = true)
    (hp1 : p1.payload.isEmpty = false)
    (hp2 : p2.payload.isEmpty = false)
    (hsame : env.decode (p1.filename.getD "") = env.decode (p2.filename.getD ""))
    (hw : ∀ s, env.wfail s = false) :
    PAct.fileWrite
        (env.attachmentsDir ++ "/" ++
          sanitize_filename (env.decode (p2.filename.getD ""))
            (env.decode m.fromH) (env.now m))
        p1.payload
      ∈ processEmail env m ∧
    PAct.fileWrite
        (env.attachmentsDir ++ "/" ++
          sanitize_filename (env.decode (p2.filename.getD ""))
            (env.decode m.fromH) (env.now m))
        p2.payload
      ∈ processEmail env m ∧
    applyWrites (processEmail env m) fs
        (env.attachmentsDir ++ "/" ++
          sanitize_filename (env.decode (p2.filename.getD ""))
            (env.decode m.fromH) (env.now m))
      = some p2.payload := by
  have hpe : processEmail env m =
      partActions env (env.decode m.fromH) (env.decode m.subjectH) (env.now m) p1 ++
        partActions env (env.decode m.fromH) (env.decode m.subjectH) (env.now m) p2 := by
    unfold processEmail
    rw [hf, hparts]
    simp
  have hpa : ∀ p : MimePart, p.disposition = some "attachment" →
      truthyName p.filename = true → p.payload.isEmpty = false →
      partActions env (env.decode m.fromH) (env.decode m.subjectH) (env.now m) p =
        processAttachment env p.payload (env.decode (p.filename.getD ""))
          (env.decode m.fromH) (env.decode m.subjectH) (env.now m) := by
    intro p hd hn hp
    unfold partActions
    rw [hd, hn, hp]
    simp
  obtain ⟨e1, he1, hne1⟩ := processAttachment_success_shape env p1.payload
    (env.decode (p1.filename.getD "")) (env.decode m.fromH) (env.decode m.subjectH)
    (env.now m) (hw _)
  obtain ⟨e2, he2, hne2⟩ := processAttachment_success_shape env p2.payload
    (env.decode (p2.filename.getD "")) (env.decode m.fromH) (env.decode m.subjectH)
    (env.now m) (hw _)
  rw [hsame] at he1
  have htr : processEmail env m =
      (PAct.fileWrite
          (env.attachmentsDir ++ "/" ++
            sanitize_filename (env.decode (p2.filename.getD ""))
              (env.decode m.fromH) (env.now m))
          p1.payload :: e1) ++
        (PAct.fileWrite
            (env.attachmentsDir ++ "/" ++
              sanitize_filename (env.decode (p2.filename.getD ""))
                (env.decode m.fromH) (env.now m))
            p2.payload :: e2) := by
    rw [hpe, hpa p1 hd1 hn1 hp1, hpa p2 hd2 hn2 hp2, hsame, he1, he2]
  refine ⟨?_, ?_, ?_⟩
  · rw [htr]
    exact List.mem_append_left _ (List.mem_cons_self _ _)
  · rw [htr]
    exact List.mem_append_right _ (List.mem_cons_self _ _)
  · rw [htr, applyWrites_append]
    have hstep : ∀ (g : String → Option (List Nat)) (pth : String) (d : List Nat)
        (ex : List PAct), (∀ q e, PAct.fileWrite q e ∉ ex) →
        applyWrites (PAct.fileWrite pth d :: ex) g pth = some d := by
      intro g pth d ex hex
      show applyWrites ex (fun q => if q = pth then some d else g q) pth = some d
      rw [applyWrites_of_no_writes ex _ hex]
      simp
    rw [hstep _ _ _ _ hne2]

/-- A message carrying two attachment parts with the same filename. -/
def msgDup : Message :=
  ⟨9, "a@b.c", "s",
    [⟨some "attachment", some "f.txt", [1]⟩, ⟨some "attachment", some "f.txt", [2, 2]⟩]⟩

/-- C9 witness: both parts of `msgDup` are written to the same path and
the final contents at that path are the second part's payload. -/
theorem C9_witness :
    msgDup.parts = [⟨some "attachment", some "f.txt", [1]⟩,
      ⟨some "attachment", some "f.txt", [2, 2]⟩] ∧
    (PAct.fileWrite
        ("att" ++ "/" ++ sanitize_filename (envOk.decode "f.txt") (envOk.decode "a@b.c")
          (envOk.now msgDup)) [1]
      ∈ processEmail envOk msgDup ∧
    PAct.fileWrite
        ("att" ++ "/" ++ sanitize_filename (envOk.decode "f.txt") (envOk.decode "a@b.c")
          (envOk.now msgDup)) [2, 2]
      ∈ processEmail envOk msgDup ∧
    applyWrites (processEmail envOk msgDup) (fun _ => none)
        ("att" ++ "/" ++ sanitize_filename (envOk.decode "f.txt") (envOk.decode "a@b.c")
          (envOk.now msgDup))
      = some [2, 2]) :=
  ⟨rfl,
    C9_duplicate_filenames_overwrite envOk msgDup
      ⟨some "attachment", some "f.txt", [1]⟩ ⟨some "attachment", some "f.txt", [2, 2]⟩
      (fun _ => none) rfl rfl rfl rfl rfl rfl rfl rfl rfl (fun _ => rfl)⟩

/-! ### Claim C5 -/

/-- The character class `[A-Za-z0-9_.-]` named by the claim. -/
def safeChar (c : Char) : Bool :=
  (65 ≤ c.toNat && c.toNat ≤ 90) || (97 ≤ c.toNat && c.toNat ≤ 122) ||
    (48 ≤ c.toNat && c.toNat ≤ 57) || c == '_' || c == '.' || c == '-'

def endsWithL (tail l : List Char) : Bool :=
  startsWithL tail.reverse l.reverse

theorem startsWithL_append (l r : List Char) : startsWithL l (l ++ r) = true := by
  induction l with
  | nil => rfl
  | cons a as ih => simp [startsWithL, ih]

theorem endsWithL_append (e p : List Char) : endsWithL e (p ++ e) = true := by
  unfold endsWithL
  rw [List.reverse_append]
  exact startsWithL_append _ _

theorem safeChar_of_senderKeep {c : Char} (h : senderKeep c = true) :
    safeChar c = true := by
  simp only [senderKeep, pyWord, safeChar, Bool.or_eq_true, Bool.and_eq_true,
    decide_eq_true_eq, beq_iff_eq] at h ⊢
  tauto

theorem safeChar_stemSub (c : Char) : safeChar (stemSub c) = true := by
  unfold stemSub
  by_cases h : (pyWord c || c == '-' || c == '_' || c == '.') = true
  · rw [if_pos h]
    simp only [pyWord, safeChar, Bool.or_eq_true, Bool.and_eq_true,
      decide_eq_true_eq, beq_iff_eq] at h ⊢
    tauto
  · rw [if_neg h]
    decide

/-- C5 counterexample: the sanitized output is NOT always within
`[A-Za-z0-9_.-]`.  The extension returned by `splitext` is lower-cased
and appended without any character substitution (line 183), so the
filename `"f.P F"` — extension `".P F"` — yields
`"a_b_c_20240101_000000_f.p f"`, which contains a space. -/
theorem C5_counterexample_unsafe_output :
    (sanitize_filename "f.P F" "a@b.c" "20240101_000000").data.all safeChar = false := by
  rfl

/-- C5 amended: for ASCII inputs, the sanitized sender and stem are always
within `[A-Za-z0-9_.-]`, and the whole output is within `[A-Za-z0-9_.-]`
provided the timestamp and the lower-cased original extension are; the
output always ends with the lower-cased extension of the original
filename.  (Unsanitized characters can enter only through the timestamp
or the extension, as the counterexample shows.) -/
theorem C5_sanitized_charset_and_extension (filename sender timestamp : String)
    (hsA : ∀ c ∈ sender.data, c.toNat < 128)
    (hfA : ∀ c ∈ filename.data, c.toNat < 128)
    (ht : ∀ c ∈ timestamp.data, safeChar c = true)
    (he : ∀ c ∈ (splitext filename.data).2, safeChar c.toLower = true) :
    (∀ c ∈ (sanitize_filename filename sender timestamp).data, safeChar c = true) ∧
    endsWithL ((splitext filename.data).2.map Char.toLower)
      (sanitize_filename filename sender timestamp).data = true := by
  have hdata : (sanitize_filename filename sender timestamp).data =
      (((lowerStr (extractEmailAddr sender)).data.map senderSub).filter senderKeep ++
          ('_' :: timestamp.data) ++
          ('_' :: ((splitext filename.data).1.map stemSub))) ++
        (splitext filename.data).2.map Char.toLower := by
    simp [sanitize_filename, List.append_assoc]
  constructor
  · intro c hc
    rw [hdata] at hc
    rcases List.mem_append.mp hc with h1 | h1
    · rcases List.mem_append.mp h1 with h2 | h2
      · rcases List.mem_append.mp h2 with h3 | h3
        · exact safeChar_of_senderKeep (List.mem_filter.mp h3).2
        · rcases List.mem_cons.mp h3 with h4 | h4
          · rw [h4]
            decide
          · exact ht c h4
      · rcases List.mem_cons.mp h2 with h4 | h4
        · rw [h4]
          decide
        · obtain ⟨a, _, ha2⟩ := List.mem_map.mp h4
          rw [← ha2]
          exact safeChar_stemSub a
    · obtain ⟨a, ha1, ha2⟩ := List.mem_map.mp h1
      rw [← ha2]
      exact he a ha1
  · rw [hdata]
    exact endsWithL_append _ _

/-- C5 witness: the amended statement at the concrete scenario inputs. -/
theorem C5_witness :
    ((∀ c ∈ ("Jane Doe <jane@ex.com>" : String).data, c.toNat < 128) ∧
      (∀ c ∈ ("Report (Final).PDF" : String).data, c.toNat < 128) ∧
      (∀ c ∈ ("20240101_120000" : String).data, safeChar c = true) ∧
      (∀ c ∈ (splitext ("Report (Final).PDF" : String).data).2, safeChar c.toLower = true)) ∧
    ((∀ c ∈ (sanitize_filename "Report (Final).PDF" "Jane Doe <jane@ex.com>"
        "20240101_120000").data, safeChar c = true) ∧
      endsWithL ((splitext ("Report (Final).PDF" : String).data).2.map Char.toLower)
        (sanitize_filename "Report (Final).PDF" "Jane Doe <jane@ex.com>"
          "20240101_120000").data = true) :=
  ⟨⟨by decide, by decide, by decide, by decide⟩,
    C5_sanitized_charset_and_extension "Report (Final).PDF" "Jane Doe <jane@ex.com>"
      "20240101_120000" (by decide) (by decide) (by decide) (by decide)⟩

/-! ### Claim C10 -/

theorem toLower_toNat_beq {c : Char} {k : Nat} (h1 : ¬(65 ≤ k ∧ k ≤ 90))
    (h2 : ¬(97 ≤ k ∧ k ≤ 122)) : (c.toLower.toNat == k) = (c.toNat == k) := by
  by_cases h : 65 ≤ c.toNat ∧ c.toNat ≤ 90
  · rw [toNat_toLower_upper h]
    have e1 : (c.toNat + 32 == k) = false := by
      rw [beq_eq_false_iff_ne]
      omega
    have e2 : (c.toNat == k) = false := by
      rw [beq_eq_false_iff_ne]
      omega
    rw [e1, e2]
  · rw [toLower_eq_self h]

theorem pySpace_toLower (c : Char) : pySpace c.toLower = pySpace c := by
  unfold pySpace
  rw [toLower_beq_symbol (by decide) (by decide), toLower_beq_symbol (by decide) (by decide),
    toLower_beq_symbol (by decide) (by decide), toLower_beq_symbol (by decide) (by decide),
    toLower_toNat_beq (by decide) (by decide), toLower_toNat_beq (by decide) (by decide)]

theorem addrChar_toLower (c : Char) : addrChar c.toLower = addrChar c := by
  unfold addrChar
  rw [pySpace_toLower, toLower_beq_symbol (by decide) (by decide),
    toLower_beq_symbol (by decide) (by decide)]

theorem angleScan_map (l : List Char) : ∀ acc : List Char,
    angleScan (acc.map Char.toLower) (l.map Char.toLower) =
      (angleScan acc l).map (List.map Char.toLower) := by
  induction l with
  | nil => intro acc; rfl
  | cons c rest ih =>
    intro acc
    simp only [List.map_cons, angleScan]
    rw [toLower_beq_symbol (by decide) (by decide), toLower_beq_symbol (by decide) (by decide)]
    by_cases h1 : (c == '>') = true
    · simp [h1, List.map_reverse]
    · rw [Bool.not_eq_true] at h1
      by_cases h2 : (c == '\n') = true
      · simp [h1, h2]
      · rw [Bool.not_eq_true] at h2
        simp only [h1, h2, Bool.false_eq_true, if_false]
        exact ih (c :: acc)

theorem angleGroup_map (l : List Char) :
    angleGroup (l.map Char.toLower) = (angleGroup l).map (List.map Char.toLower) := by
  cases l with
  | nil => rfl
  | cons c rest =>
    simp only [List.map_cons, angleGroup]
    rw [toLower_beq_symbol (by decide) (by decide)]
    by_cases h : (c == '\n') = true
    · simp [h]
    · rw [Bool.not_eq_true] at h
      simp only [h, Bool.false_eq_true, if_false]
      exact angleScan_map rest [c]

theorem takeWhile_addrChar_map (l : List Char) :
    (l.map Char.toLower).takeWhile addrChar =
      (l.takeWhile addrChar).map Char.toLower := by
  induction l with
  | nil => rfl
  | cons c rest ih =>
    simp only [List.map_cons, List.takeWhile_cons]
    rw [addrChar_toLower]
    by_cases h : addrChar c = true
    · simp [h, ih]
    · rw [Bool.not_eq_true] at h
      simp [h]

theorem contains_at_map (l : List Char) :
    (l.map Char.toLower).contains '@' = l.contains '@' := by
  induction l with
  | nil => rfl
  | cons c rest ih =>
    simp only [List.map_cons, List.contains_cons, ih]
    have hc : (('@' : Char) == c.toLower) = (('@' : Char) == c) := by
      by_cases h : c.toLower = '@'
      · rw [h, (toLower_eq_symbol (by decide) (by decide)).mp h]
      · have h2 : ¬(c = '@') := fun he => h ((toLower_eq_symbol (by decide) (by decide)).mpr he)
        have e1 : (('@' : Char) == c.toLower) = false := by
          rw [beq_eq_false_iff_ne]
          exact fun he => h he.symm
        have e2 : (('@' : Char) == c) = false := by
          rw [beq_eq_false_iff_ne]
          exact fun he => h2 he.symm
        rw [e1, e2]
    rw [hc]

theorem interiorAt_map (l : List Char) : interiorAt (l.map Char.toLower) = interiorAt l := by
  cases l with
  | nil => rfl
  | cons c rest =>
    simp only [List.map_cons, interiorAt]
    rw [← List.map_dropLast]
    exact contains_at_map _

theorem emailSearch_map (l : List Char) :
    emailSearch (l.map Char.toLower) = (emailSearch l).map (List.map Char.toLower) := by
  induction l with
  | nil => rfl
  | cons c rest ih =>
    simp only [List.map_cons, emailSearch]
    rw [toLower_beq_symbol (by decide) (by decide)]
    by_cases h : (c == '<') = true
    · rw [h]
      simp only [if_pos rfl, angleGroup_map rest]
      cases hag : angleGroup rest with
      | some g => simp
      | none =>
        have hrun : (Char.toLower c :: rest.map Char.toLower).takeWhile addrChar =
            ((c :: rest).takeWhile addrChar).map Char.toLower :=
          takeWhile_addrChar_map (c :: rest)
        rw [hrun, interiorAt_map]
        by_cases hi : interiorAt ((c :: rest).takeWhile addrChar) = true
        · simp [hi]
        · rw [Bool.not_eq_true] at hi
          simp [hi, ih]
    · rw [Bool.not_eq_true] at h
      rw [h]
      simp only [Bool.false_eq_true, if_false]
      have hrun : (Char.toLower c :: rest.map Char.toLower).takeWhile addrChar =
          ((c :: rest).takeWhile addrChar).map Char.toLower :=
        takeWhile_addrChar_map (c :: rest)
      rw [hrun, interiorAt_map]
      by_cases hi : interiorAt ((c :: rest).takeWhile addrChar) = true
      · simp [hi]
      · rw [Bool.not_eq_true] at hi
        simp only [hi, Bool.false_eq_true, if_false]
        exact ih

theorem lowerStr_idem (s : String) : lowerStr (lowerStr s) = lowerStr s := by
  unfold lowerStr
  apply congrArg String.mk
  show (s.data.map Char.toLower).map Char.toLower = s.data.map Char.toLower
  rw [List.map_map]
  exact List.map_congr_left (fun a _ => toLower_idem a)

theorem extract_lowerStr (s : String) :
    extractEmailAddr (lowerStr s) = lowerStr (extractEmailAddr s) := by
  unfold extractEmailAddr
  have hd : (lowerStr s).data = s.data.map Char.toLower := rfl
  rw [hd, emailSearch_map]
  cases hes : emailSearch s.data with
  | none => simp
  | some g => simp [lowerStr]

/-- C10: the sanitizer lower-cases the extracted address (line 177), so a
sender string and its (ASCII) lower-casing produce the same sanitized
filename for every original filename and timestamp. -/
theorem C10_sanitize_lowercase_sender (filename sender timestamp : String)
    (hsA : ∀ c ∈ sender.data, c.toNat < 128) :
    sanitize_filename filename sender timestamp =
      sanitize_filename filename (lowerStr sender) timestamp := by
  simp only [sanitize_filename]
  rw [extract_lowerStr, lowerStr_idem]

/-- C10 witness: the mixed-case scenario sender and its lower-casing give
the same output. -/
theorem C10_witness :
    (∀ c ∈ ("Jane Doe <jane@ex.com>" : String).data, c.toNat < 128) ∧
    sanitize_filename "Report (Final).PDF" "Jane Doe <jane@ex.com>" "20240101_120000" =
      sanitize_filename "Report (Final).PDF" (lowerStr "Jane Doe <jane@ex.com>")
        "20240101_120000" :=
  ⟨by decide,
    C10_sanitize_lowercase_sender "Report (Final).PDF" "Jane Doe <jane@ex.com>"
      "20240101_120000" (by decide)⟩
